import Mathlib

/-
Shallow embedding of the eConnect meeting/session lifecycle, virtual-table
presence, recording pipeline and conferencing-adapter cleanup logic.

Sources embedded (translated from the TypeScript source, not from the spec):
  * src/econnect/src/types/index.ts            — data model (Participant,
    Meeting, Event, VirtualTable)
  * src/econnect/src/components/meetings/MeetingRoom.tsx
      - fetchMeeting (lines 52-68): append-if-absent participant join
      - handleMeetingEnd (lines 81-110): leave-time / end-time update
  * src/unnamed/part_007 (VirtualTables component)
      - handleJoinTable (lines 152-186): capacity guard, remove-from-old,
        add-to-new
      - create-table dialog onClick (lines 438-480)
  * src/econnect/src/services/jitsi.ts
      - startRecording (lines 112-134): resolve on recordingStatusChanged
        with on = true, reject after a 10000 ms timeout
  * src/econnect/src/components/meetings/JitsiContainer.tsx
      - handleStartRecording (lines 59-72): isRecording is set only after
        the startRecording promise resolves
  * src/unnamed/part_000 (useJitsi hook)
      - initJitsi listener registration (lines 210-234) and the effect
        cleanup closure (lines 245-269)

Machine integers: the TypeScript values involved are small JS numbers used
as counts and timestamps; they are modelled as Nat (times, counts) and Int
(table capacity, which user input may make zero or negative).  Timestamps
(new Date(), serverTimestamp()) are modelled by an explicit clock parameter
`now : Nat`; the bookkeeping fields createdAt/updatedAt, which every write
sets to a server timestamp and which no claim mentions, are omitted from
the records.
-/

namespace EConnect

/-- Participant role from types/index.ts: 'moderator' | 'viewer'. -/
inductive Role where
  | moderator
  | viewer
deriving DecidableEq, Repr

/-- Participant record from types/index.ts (userId, displayName, role,
joinTime, leaveTime?). -/
structure Participant where
  userId : String
  displayName : String
  role : Role
  joinTime : Nat
  leaveTime : Option Nat := none
deriving DecidableEq, Repr

/-- Meeting record from types/index.ts.  createdAt/updatedAt omitted (see
header); recording fields are kept since the interface declares them. -/
structure Meeting where
  id : String
  eventId : String
  title : String
  startTime : Nat
  endTime : Option Nat := none
  hostId : String
  participants : List Participant
  jitsiRoomName : String
  recordingEnabled : Bool := false
deriving DecidableEq, Repr

/-- Event record from types/index.ts (participants is an array of user
ids). -/
structure Event where
  id : String
  title : String
  description : String
  startTime : Nat
  endTime : Nat
  createdBy : String
  isPublic : Bool
  maxParticipants : Option Nat := none
  participants : List String
  jitsiRoomName : String
deriving DecidableEq, Repr

/-- VirtualTable record from types/index.ts.  capacity is an Int because it
comes from `Number(e.target.value)` in the create-table dialog, which the
handler never range-checks, so zero and negative values are representable. -/
structure VirtualTable where
  id : String
  eventId : String
  name : String
  capacity : Int
  participants : List String
deriving DecidableEq, Repr

/-- The document store as seen by MeetingRoom: the meetings collection and
the events collection.  handleMeetingEnd only ever writes the meetings
collection. -/
structure Store where
  meetings : List Meeting
  events : List Event
deriving DecidableEq, Repr

/-- The fresh Participant appended by fetchMeeting (MeetingRoom.tsx lines
57-62): role is moderator exactly when the joining user is the host. -/
def newParticipant (m : Meeting) (uid displayName : String) (now : Nat) :
    Participant :=
  { userId := uid
    displayName := displayName
    role := if m.hostId == uid then Role.moderator else Role.viewer
    joinTime := now
    leaveTime := none }

/-- Participant-append step of fetchMeeting (MeetingRoom.tsx lines 52-68):
`participants.some (p => p.userId === currentUser.uid)` guards the write;
when no entry matches, the new participant is appended, otherwise no write
is issued. -/
def fetchMeetingJoin (m : Meeting) (uid displayName : String) (now : Nat) :
    Meeting :=
  if m.participants.any (fun p => p.userId == uid) then m
  else { m with participants := m.participants ++ [newParticipant m uid displayName now] }

/-- At most one Participant entry per user id, stated as pairwise
distinctness of the userId fields. -/
def uniquePerUser (m : Meeting) : Prop :=
  m.participants.Pairwise (fun p q => p.userId ≠ q.userId)

/-- handleMeetingEnd (MeetingRoom.tsx lines 81-110), meeting-record level:
every participant entry whose userId matches the leaving user gets
leaveTime := now; the update includes `endTime: new Date()` exactly when
the isHost flag (computed in fetchMeeting as hostId === currentUser.uid)
is set. -/
def handleMeetingEnd (m : Meeting) (uid : String) (isHost : Bool) (now : Nat) :
    Meeting :=
  { m with
    participants := m.participants.map (fun p =>
      if p.userId == uid then { p with leaveTime := some now } else p)
    endTime := if isHost then some now else m.endTime }

/-- handleMeetingEnd at store level: it re-reads the meeting document by id
and, when the snapshot exists, updates that meeting document only; the
events collection is never touched (MeetingRoom.tsx lines 84-103). -/
def handleMeetingEndStore (s : Store) (meetingId uid : String) (isHost : Bool)
    (now : Nat) : Store :=
  match s.meetings.find? (fun m => m.id == meetingId) with
  | none => s
  | some _ =>
    { s with
      meetings := s.meetings.map (fun m =>
        if m.id == meetingId then handleMeetingEnd m uid isHost now else m) }

/-- Firestore arrayRemove on a string-array field: removes every element
equal to the argument. -/
def arrayRemove (l : List String) (x : String) : List String :=
  l.filter (fun a => a ≠ x)

/-- Firestore arrayUnion on a string-array field: appends the argument
unless it is already present. -/
def arrayUnion (l : List String) (x : String) : List String :=
  if x ∈ l then l else l ++ [x]

/-- An updateDoc targeting the virtualTables document with the given id,
applied to the collection. -/
def updateTable (ts : List VirtualTable) (tid : String)
    (f : VirtualTable → VirtualTable) : List VirtualTable :=
  ts.map (fun t => if t.id == tid then f t else t)

/-- Lookup of a virtual-table document by id. -/
def findTable (ts : List VirtualTable) (tid : String) : Option VirtualTable :=
  ts.find? (fun t => t.id == tid)

/-- The membership writes of handleJoinTable (part_007 lines 165-177): when
the user is already at a table, an arrayRemove write on the old table is
issued first, then an arrayUnion write on the selected table. -/
def joinWrites (ts : List VirtualTable) (selected : VirtualTable)
    (joined : Option VirtualTable) (uid : String) : List VirtualTable :=
  let ts1 :=
    match joined with
    | some j => updateTable ts j.id (fun t =>
        { t with participants := arrayRemove t.participants uid })
    | none => ts
  updateTable ts1 selected.id (fun t =>
    { t with participants := arrayUnion t.participants uid })

/-- handleJoinTable (part_007 lines 152-186).  The capacity guard is the JS
condition `selectedTable.capacity && selectedTable.participants.length >=
selectedTable.capacity`: the truthiness test means the guard can only fire
when capacity is non-zero.  On the guard the handler sets the error and
returns before any write; otherwise it issues the membership writes.  The
result pairs the virtualTables collection after the handler with the error
message, if any. -/
def handleJoinTable (ts : List VirtualTable) (selected : VirtualTable)
    (joined : Option VirtualTable) (uid : String) :
    List VirtualTable × Option String :=
  if selected.capacity ≠ 0 ∧ selected.capacity ≤ (selected.participants.length : Int) then
    (ts, some "This table is full")
  else
    (joinWrites ts selected joined uid, none)

/-- JS String.prototype.trim, written out on the underlying character
list: drop leading and trailing whitespace. -/
def jsTrim (s : String) : String :=
  String.mk (((s.data.dropWhile Char.isWhitespace).reverse.dropWhile
    Char.isWhitespace).reverse)

/-- Create-table dialog onClick (part_007 lines 438-480): bails out when
the trimmed name or the eventId is empty (the JS guard
`!newTableName.trim() || !eventId`), otherwise addDoc appends a new table
with an empty participants array and the capacity exactly as typed — the
handler performs no range check on capacity (the input element's min=1 and
max=50 attributes are UI hints only). -/
def createTable (tables : List VirtualTable) (eventId name : String)
    (capacity : Int) (newId : String) : List VirtualTable :=
  if jsTrim name = "" ∨ eventId = "" then tables
  else
    tables ++ [{ id := newId
                 eventId := eventId
                 name := jsTrim name
                 capacity := capacity
                 participants := [] }]

/-- EventCreation handleSubmit (part_003 lines 36-87): requires a logged-in
user profile, non-empty title/description and both time fields present,
start strictly before end; on success the stored event document has
`participants: [userProfile.id]` (the creator, and only the creator). -/
def eventCreationSubmit (uid : Option String) (title description : String)
    (startTime endTime : Option Nat) (isPublic : Bool)
    (maxParticipants : Option Nat) (roomName newId : String) : Option Event :=
  match uid with
  | none => none
  | some u =>
    match startTime, endTime with
    | some st, some et =>
      if title = "" ∨ description = "" then none
      else if et ≤ st then none
      else some
        { id := newId
          title := title
          description := description
          startTime := st
          endTime := et
          createdBy := u
          isPublic := isPublic
          maxParticipants := maxParticipants
          participants := [u]
          jitsiRoomName := roomName }
    | _, _ => none

/-- A recordingStatusChanged event observed by the listener that
startRecording registers: the time is milliseconds after the
startRecording call, the flag is the payload's `on` field. -/
structure RecEvent where
  time : Nat
  isOn : Bool
deriving DecidableEq, Repr

/-- Outcome of the promise returned by startRecording. -/
inductive RecOutcome where
  | resolved (t : Nat)
  | rejected (msg : String)
deriving DecidableEq, Repr

/-- The timeout of startRecording (jitsi.ts line 128): 10000 ms. -/
def recordingTimeoutMs : Nat := 10000

/-- startRecording (jitsi.ts lines 112-134) over a time-ordered trace of
recordingStatusChanged events: the listener resolves the promise at the
first event with on = true; the setTimeout rejects at 10000 ms; a promise
settles once, so the first of the two wins.  An on = true event at or
after the timeout arrives after the rejection has settled the promise. -/
def startRecordingOutcome (events : List RecEvent) : RecOutcome :=
  match events.find? (fun e => e.isOn && decide (e.time < recordingTimeoutMs)) with
  | some e => RecOutcome.resolved e.time
  | none => RecOutcome.rejected "Recording start timeout"

/-- handleStartRecording (JitsiContainer.tsx lines 59-72): awaits
startRecording and only then sets isRecording := true; on rejection the
catch branch records the error message and isRecording stays false.
Returns (isRecording, recordingError) starting from the not-recording
state. -/
def handleStartRecording (events : List RecEvent) : Bool × Option String :=
  match startRecordingOutcome events with
  | RecOutcome.resolved _ => (true, none)
  | RecOutcome.rejected msg => (false, some msg)

/-- State of a JitsiMeetExternalAPI handle as the useJitsi hook drives it:
the registered (eventName, callback-reference) pairs and whether dispose()
has been called. -/
structure AdapterState where
  listeners : List (String × Nat)
  disposed : Bool
deriving DecidableEq, Repr

/-- api.addListener(event, handler). -/
def addListener (s : AdapterState) (ev : String) (cb : Nat) : AdapterState :=
  { s with listeners := s.listeners ++ [(ev, cb)] }

/-- api.removeListener(event, handler): unregisters that (event, callback)
pair. -/
def removeListener (s : AdapterState) (ev : String) (cb : Nat) : AdapterState :=
  { s with listeners := s.listeners.filter (fun p => p ≠ (ev, cb)) }

/-- api.dispose(). -/
def dispose (s : AdapterState) : AdapterState :=
  { s with disposed := true }

/-- Listener registration in initJitsi (part_000 lines 210-234): each
provided handler is registered via addListener. -/
def setupListeners (handlers : List (String × Nat)) (s : AdapterState) :
    AdapterState :=
  handlers.foldl (fun acc p => addListener acc p.1 p.2) s

/-- The effect cleanup closure of useJitsi (part_000 lines 245-269).  The
closure reads the `jitsiAPI` state binding of the render in which the
effect ran; `capturedApi` is that captured value.  When it is non-null the
closure removes each handler with removeListener and then calls dispose();
when it is null the closure does nothing. -/
def useJitsiCleanup (capturedApi : Option Unit)
    (handlers : List (String × Nat)) (s : AdapterState) : AdapterState :=
  match capturedApi with
  | none => s
  | some _ => dispose (handlers.foldl (fun acc p => removeListener acc p.1 p.2) s)

/-- The mount → successful-init → unmount run of useJitsi with no
intervening dependency change.  React semantics of part_000 lines 145-278:
the effect runs at the first render, where the `jitsiAPI` state is still
null; `jitsiAPI` is not in the dependency array ([roomName, isHost,
userProfile, ...callbacks], line 270-278), and setJitsiAPI(api) (line 234)
re-renders without mutating the binding the already-created cleanup
closure captured — so on unmount the cleanup runs with capturedApi =
none. -/
def useJitsiMountUnmount (handlers : List (String × Nat)) : AdapterState :=
  let capturedApi : Option Unit := none
  let s := setupListeners handlers { listeners := [], disposed := false }
  useJitsiCleanup capturedApi handlers s

/-- The four handlers JitsiContainer passes to useJitsi
(handleParticipantJoined, handleParticipantLeft,
handleVideoConferenceJoined, handleVideoConferenceLeft), as callback
references 0-3 under their event names (part_000 lines 213-227). -/
def standardHandlers : List (String × Nat) :=
  [("participantJoined", 0), ("participantLeft", 1),
   ("videoConferenceJoined", 2), ("videoConferenceLeft", 3)]

/-- Concrete host participant used by witnesses. -/
def pHostEx : Participant :=
  { userId := "h1", displayName := "Host", role := Role.moderator,
    joinTime := 0, leaveTime := none }

/-- Concrete viewer participant used by witnesses. -/
def pViewerEx : Participant :=
  { userId := "v1", displayName := "Viewer", role := Role.viewer,
    joinTime := 1, leaveTime := none }

/-- Concrete meeting used by witnesses: host h1 and viewer v1 joined, not
yet ended. -/
def mEx : Meeting :=
  { id := "m1", eventId := "e1", title := "Standup", startTime := 0,
    endTime := none, hostId := "h1",
    participants := [pHostEx, pViewerEx], jitsiRoomName := "room-e1" }

/-- Concrete event document used by witnesses: users a1 and b1 are event
participants. -/
def evEntryEx : Event :=
  { id := "e1", title := "Kickoff", description := "Launch", startTime := 10,
    endTime := 20, createdBy := "a1", isPublic := true,
    maxParticipants := none, participants := ["a1", "b1"],
    jitsiRoomName := "room-e1" }

/-- Concrete store used by witnesses. -/
def sEx : Store :=
  { meetings := [mEx], events := [evEntryEx] }

/-- Concrete table the witness user u1 currently occupies. -/
def tOldEx : VirtualTable :=
  { id := "tA", eventId := "e1", name := "A", capacity := 4,
    participants := ["u1", "w1"] }

/-- Concrete non-full table the witness user u1 switches to. -/
def tNewEx : VirtualTable :=
  { id := "tB", eventId := "e1", name := "B", capacity := 2,
    participants := ["x1"] }

/-- Concrete virtual-table collection used by witnesses. -/
def tsEx : List VirtualTable := [tOldEx, tNewEx]

/-- Concrete full table (capacity 2, two members) from the spec's
end-to-end scenario, used by the capacity witness. -/
def tFullEx : VirtualTable :=
  { id := "tF", eventId := "e1", name := "Table 1", capacity := 2,
    participants := ["a1", "b1"] }

/-- Concrete capacity-0 table holding one member, used by the capacity
counterexample. -/
def tZeroEx : VirtualTable :=
  { id := "t0", eventId := "e1", name := "Zero", capacity := 0,
    participants := ["a1"] }

/-- Concrete capacity-0 table holding three members, used by the
capacity-0 witness. -/
def tZero3Ex : VirtualTable :=
  { id := "z", eventId := "e1", name := "Z", capacity := 0,
    participants := ["p1", "p2", "p3"] }

/-- Concrete recordingStatusChanged trace whose only on = true event
arrives after the 10 s timeout. -/
def recTraceEx : List RecEvent := [{ time := 12000, isOn := true }]

/-- Concrete event document produced by the event-creation witness. -/
def evCreatedEx : Event :=
  { id := "nid", title := "T", description := "D", startTime := 1,
    endTime := 2, createdBy := "u1", isPublic := true,
    maxParticipants := none, participants := ["u1"],
    jitsiRoomName := "room1" }

lemma mem_arrayUnion_self (l : List String) (x : String) :
    x ∈ arrayUnion l x := by
  unfold arrayUnion
  by_cases h : x ∈ l
  · simp [h]
  · simp [h]

lemma mem_arrayUnion (l : List String) (x a : String) :
    a ∈ arrayUnion l x ↔ a ∈ l ∨ a = x := by
  unfold arrayUnion
  by_cases h : x ∈ l
  · simp only [if_pos h]
    constructor
    · exact Or.inl
    · rintro (ha | rfl)
      · exact ha
      · exact h
  · simp [if_neg h]

lemma length_arrayUnion_le (l : List String) (x : String) :
    (arrayUnion l x).length ≤ l.length + 1 := by
  unfold arrayUnion
  by_cases h : x ∈ l
  · simp [h]
  · simp [h]

lemma not_mem_arrayRemove_self (l : List String) (x : String) :
    x ∉ arrayRemove l x := by
  unfold arrayRemove
  intro h
  have := (List.mem_filter.mp h).2
  simp at this

lemma length_arrayRemove_le (l : List String) (x : String) :
    (arrayRemove l x).length ≤ l.length :=
  List.length_filter_le _ l

/-- C1: when the session-end handler runs for an existing meeting record,
the leaving user's Participant entries get leaveTime := now, every other
Participant entry is unchanged (membership in both directions and the list
length are preserved), and the Meeting's endTime becomes set if and only
if the leaving user is the host (the isHost flag the handler reads was
computed as hostId === currentUser.uid). -/
theorem handleMeetingEnd_leave_spec (m : Meeting) (uid : String) (now : Nat)
    (hend : m.endTime = none) :
    (handleMeetingEnd m uid (m.hostId == uid) now).participants.length
        = m.participants.length
    ∧ (∀ p, p ∈ m.participants → p.userId ≠ uid →
        p ∈ (handleMeetingEnd m uid (m.hostId == uid) now).participants)
    ∧ (∀ p, p ∈ m.participants → p.userId = uid →
        { p with leaveTime := some now }
          ∈ (handleMeetingEnd m uid (m.hostId == uid) now).participants)
    ∧ (∀ q, q ∈ (handleMeetingEnd m uid (m.hostId == uid) now).participants →
        ∃ p, p ∈ m.participants ∧
          ((p.userId ≠ uid ∧ q = p) ∨
           (p.userId = uid ∧ q = { p with leaveTime := some now })))
    ∧ ((handleMeetingEnd m uid (m.hostId == uid) now).endTime = some now
        ↔ m.hostId = uid) := by
  refine ⟨by simp [handleMeetingEnd], ?_, ?_, ?_, ?_⟩
  · intro p hp hne
    simp only [handleMeetingEnd]
    exact List.mem_map.mpr ⟨p, hp, by simp [hne]⟩
  · intro p hp heq
    simp only [handleMeetingEnd]
    exact List.mem_map.mpr ⟨p, hp, by simp [heq]⟩
  · intro q hq
    simp only [handleMeetingEnd] at hq
    obtain ⟨p, hp, hpq⟩ := List.mem_map.mp hq
    refine ⟨p, hp, ?_⟩
    by_cases h : p.userId = uid
    · right
      have hb : (p.userId == uid) = true := by simp [h]
      rw [if_pos hb] at hpq
      exact ⟨h, hpq.symm⟩
    · left
      have hb : ¬ ((p.userId == uid) = true) := by simp [h]
      rw [if_neg hb] at hpq
      exact ⟨h, hpq.symm⟩
  · cases hb : (m.hostId == uid) with
    | true =>
      have : m.hostId = uid := by simpa using hb
      simp [handleMeetingEnd, this]
    | false =>
      have : ¬ m.hostId = uid := by simpa using hb
      simp [handleMeetingEnd, hend, this]

/-- Witness for C1 at the concrete meeting mEx: the host h1 leaves a
meeting with no end time, and the end time becomes set. -/
theorem handleMeetingEnd_leave_witness :
    mEx.endTime = none
    ∧ ((handleMeetingEnd mEx "h1" (mEx.hostId == "h1") 5).endTime = some 5
        ↔ mEx.hostId = "h1") :=
  ⟨rfl, (handleMeetingEnd_leave_spec mEx "h1" 5 rfl).2.2.2.2⟩

/-- C2: the participant-append step of fetchMeeting preserves the
at-most-one-entry-per-user-id invariant, appends the new Participant
exactly when no entry with the joining user's id is present, performs no
write when one is, and is therefore idempotent: a repeated join leaves the
meeting record unchanged. -/
theorem fetchMeetingJoin_spec (m : Meeting) (uid dn : String) (now now2 : Nat)
    (hm : uniquePerUser m) :
    uniquePerUser (fetchMeetingJoin m uid dn now)
    ∧ (m.participants.any (fun p => p.userId == uid) = true →
        fetchMeetingJoin m uid dn now = m)
    ∧ (m.participants.any (fun p => p.userId == uid) = false →
        (fetchMeetingJoin m uid dn now).participants
          = m.participants ++ [newParticipant m uid dn now])
    ∧ fetchMeetingJoin (fetchMeetingJoin m uid dn now) uid dn now2
        = fetchMeetingJoin m uid dn now := by
  cases h : m.participants.any (fun p => p.userId == uid) with
  | true =>
    have hid : fetchMeetingJoin m uid dn now = m := by
      simp [fetchMeetingJoin, h]
    have hid2 : fetchMeetingJoin m uid dn now2 = m := by
      simp [fetchMeetingJoin, h]
    refine ⟨by rw [hid]; exact hm, fun _ => hid,
      fun hfalse => by simp [h] at hfalse, ?_⟩
    rw [hid, hid2]
  | false =>
    have habsent : ∀ p ∈ m.participants, p.userId ≠ uid := by
      intro p hp
      have := List.any_eq_false.mp h p hp
      simpa using this
    have happ : (fetchMeetingJoin m uid dn now).participants
        = m.participants ++ [newParticipant m uid dn now] := by
      simp [fetchMeetingJoin, h]
    refine ⟨?_, fun htrue => by simp [h] at htrue, fun _ => happ, ?_⟩
    · unfold uniquePerUser at hm ⊢
      rw [happ]
      refine List.pairwise_append.mpr ⟨hm, List.pairwise_singleton _ _, ?_⟩
      intro p hp q hq
      have hq1 : q = newParticipant m uid dn now := by simpa using hq
      have : (newParticipant m uid dn now).userId = uid := rfl
      rw [hq1, this]
      exact habsent p hp
    · have hany2 : (fetchMeetingJoin m uid dn now).participants.any
          (fun p => p.userId == uid) = true := by
        rw [happ, List.any_append]
        have : (newParticipant m uid dn now).userId = uid := rfl
        simp [List.any_cons, this]
      have hstep : ∀ mm : Meeting,
          mm.participants.any (fun p => p.userId == uid) = true →
          fetchMeetingJoin mm uid dn now2 = mm := by
        intro mm hmm
        simp [fetchMeetingJoin, hmm]
      exact hstep _ hany2

/-- Witness for C2 at the concrete meeting mEx: the invariant holds for
mEx and a repeated join by user u9 is a no-op. -/
theorem fetchMeetingJoin_witness :
    uniquePerUser mEx
    ∧ fetchMeetingJoin (fetchMeetingJoin mEx "u9" "Nine" 3) "u9" "Nine" 4
        = fetchMeetingJoin mEx "u9" "Nine" 3 := by
  have hm : uniquePerUser mEx := by
    unfold uniquePerUser
    decide
  exact ⟨hm, (fetchMeetingJoin_spec mEx "u9" "Nine" 3 4 hm).2.2.2⟩

/-- C5: the startRecording promise resolves only at an observed
recordingStatusChanged event with on = true arriving before the 10000 ms
timeout; when no on = true event arrives within the timeout it rejects
with the timeout error, and handleStartRecording then leaves isRecording
false (it is set to true only after the promise resolves). -/
theorem startRecording_spec (events : List RecEvent) :
    (∀ t, startRecordingOutcome events = RecOutcome.resolved t →
       ∃ e, e ∈ events ∧ e.isOn = true ∧ e.time = t ∧ t < recordingTimeoutMs)
    ∧ ((∀ e, e ∈ events → e.isOn = true → recordingTimeoutMs ≤ e.time) →
        startRecordingOutcome events = RecOutcome.rejected "Recording start timeout"
        ∧ handleStartRecording events = (false, some "Recording start timeout")) := by
  constructor
  · intro t h
    unfold startRecordingOutcome at h
    cases hf : events.find? (fun e => e.isOn && decide (e.time < recordingTimeoutMs)) with
    | none => rw [hf] at h; exact absurd h (by simp)
    | some e =>
      rw [hf] at h
      have hmem := List.mem_of_find?_eq_some hf
      have hp := List.find?_some hf
      have ht : e.time = t := by
        have := h
        simp only [RecOutcome.resolved.injEq] at this
        exact this
      simp only [Bool.and_eq_true, decide_eq_true_eq] at hp
      exact ⟨e, hmem, hp.1, ht, ht ▸ hp.2⟩
  · intro hall
    have hnone : events.find?
        (fun e => e.isOn && decide (e.time < recordingTimeoutMs)) = none := by
      apply List.find?_eq_none.mpr
      intro e he
      simp only [Bool.and_eq_true, decide_eq_true_eq, not_and]
      intro hOn
      exact Nat.not_lt.mpr (hall e he hOn)
    constructor
    · simp [startRecordingOutcome, hnone]
    · simp [handleStartRecording, startRecordingOutcome, hnone]

/-- Witness for C5 at the concrete trace recTraceEx, whose only on = true
event arrives at 12000 ms: the handler rejects and isRecording stays
false. -/
theorem startRecording_timeout_witness :
    (∀ e, e ∈ recTraceEx → e.isOn = true → recordingTimeoutMs ≤ e.time)
    ∧ handleStartRecording recTraceEx = (false, some "Recording start timeout") := by
  have h : ∀ e, e ∈ recTraceEx → e.isOn = true → recordingTimeoutMs ≤ e.time := by
    decide
  exact ⟨h, ((startRecording_spec recTraceEx).2 h).2⟩

/-- C6: the meeting-leave handler writes only the meetings collection; the
events collection is untouched, so any event document that listed users a
and b still lists both after the leave completes. -/
theorem handleMeetingEndStore_frame (s : Store) (mid uid : String)
    (isHost : Bool) (now : Nat) :
    (handleMeetingEndStore s mid uid isHost now).events = s.events
    ∧ ∀ e, e ∈ s.events → ∀ a b : String,
        a ∈ e.participants → b ∈ e.participants →
        e ∈ (handleMeetingEndStore s mid uid isHost now).events
        ∧ a ∈ e.participants ∧ b ∈ e.participants := by
  have hev : (handleMeetingEndStore s mid uid isHost now).events = s.events := by
    unfold handleMeetingEndStore
    cases s.meetings.find? (fun m => m.id == mid) with
    | none => rfl
    | some _ => rfl
  exact ⟨hev, fun e he a b ha hb => ⟨hev ▸ he, ha, hb⟩⟩

/-- Witness for C6 at the concrete store sEx: after v1 leaves meeting m1,
the event e1 still lists a1 and b1. -/
theorem handleMeetingEndStore_frame_witness :
    evEntryEx ∈ sEx.events ∧ "a1" ∈ evEntryEx.participants
    ∧ "b1" ∈ evEntryEx.participants
    ∧ (evEntryEx ∈ (handleMeetingEndStore sEx "m1" "v1" false 7).events
        ∧ "a1" ∈ evEntryEx.participants ∧ "b1" ∈ evEntryEx.participants) := by
  refine ⟨by decide, by decide, by decide, ?_⟩
  exact (handleMeetingEndStore_frame sEx "m1" "v1" false 7).2 evEntryEx
    (by decide) "a1" "b1" (by decide) (by decide)

lemma table_eq_of_id_eq {ts : List VirtualTable}
    (hids : ts.Pairwise (fun a b => a.id ≠ b.id)) {t u : VirtualTable}
    (ht : t ∈ ts) (hu : u ∈ ts) (h : t.id = u.id) : t = u := by
  by_contra hne
  have hsym : Symmetric (fun a b : VirtualTable => a.id ≠ b.id) := by
    intro a b hab e
    exact hab e.symm
  exact (hids.forall hsym ht hu hne) h

lemma joinWrites_mem (ts : List VirtualTable) (selected : VirtualTable)
    (joined : Option VirtualTable) (uid : String) {t : VirtualTable}
    (ht : t ∈ joinWrites ts selected joined uid) :
    ∃ t0, t0 ∈ ts ∧ ∃ t1, t1.id = t0.id ∧ t1.capacity = t0.capacity
      ∧ t1.participants.length ≤ t0.participants.length
      ∧ t = (if t1.id == selected.id then
          { t1 with participants := arrayUnion t1.participants uid } else t1) := by
  cases joined with
  | none =>
    unfold joinWrites updateTable at ht
    obtain ⟨t0, ht0, rfl⟩ := List.mem_map.mp ht
    exact ⟨t0, ht0, t0, rfl, rfl, Nat.le_refl _, rfl⟩
  | some j =>
    unfold joinWrites updateTable at ht
    rw [List.map_map] at ht
    obtain ⟨t0, ht0, rfl⟩ := List.mem_map.mp ht
    refine ⟨t0, ht0,
      (if t0.id == j.id then
        { t0 with participants := arrayRemove t0.participants uid } else t0),
      ?_, ?_, ?_, rfl⟩
    · by_cases h : t0.id = j.id
      · simp [h]
      · simp [h]
    · by_cases h : t0.id = j.id
      · simp [h]
      · simp [h]
    · by_cases h : t0.id = j.id
      · simp only [h, beq_self_eq_true, if_true]
        exact length_arrayRemove_le _ _
      · simp [h]

/-- C3: when a user who is currently a member of (only) table selO joins a
different table selN that the capacity guard admits, the handler issues an
arrayRemove on the old table followed by an arrayUnion on the new one, and
afterwards the user is a member of exactly the tables with the new table's
id: the new table contains the user and every other table does not. -/
theorem joinTable_switch_exclusive
    (ts : List VirtualTable) (selN selO : VirtualTable) (uid : String)
    (hN : selN ∈ ts)
    (hne : selO.id ≠ selN.id)
    (hnotfull : ¬ (selN.capacity ≠ 0
        ∧ selN.capacity ≤ (selN.participants.length : Int)))
    (honly : ∀ t, t ∈ ts → uid ∈ t.participants → t.id = selO.id) :
    (handleJoinTable ts selN (some selO) uid).2 = none
    ∧ (∃ t, t ∈ (handleJoinTable ts selN (some selO) uid).1
        ∧ t.id = selN.id ∧ uid ∈ t.participants)
    ∧ (∀ t, t ∈ (handleJoinTable ts selN (some selO) uid).1 →
        (uid ∈ t.participants ↔ t.id = selN.id)) := by
  have hres : handleJoinTable ts selN (some selO) uid
      = (joinWrites ts selN (some selO) uid, none) := by
    unfold handleJoinTable
    rw [if_neg hnotfull]
  rw [hres]
  have hNO : ¬ selN.id = selO.id := fun e => hne e.symm
  refine ⟨rfl, ?_, ?_⟩
  · refine ⟨?_, ?_⟩
    · exact
        (if selN.id == selN.id then
          { (if selN.id == selO.id then
              { selN with participants := arrayRemove selN.participants uid }
            else selN) with
            participants := arrayUnion
              (if selN.id == selO.id then
                { selN with participants := arrayRemove selN.participants uid }
              else selN).participants uid }
        else
          (if selN.id == selO.id then
            { selN with participants := arrayRemove selN.participants uid }
          else selN))
    · constructor
      · unfold joinWrites updateTable
        rw [List.map_map]
        refine List.mem_map.mpr ⟨selN, hN, ?_⟩
        simp [hNO]
      · constructor
        · simp [hNO]
        · simp [hNO, mem_arrayUnion_self]
  · intro t' ht'
    unfold joinWrites updateTable at ht'
    rw [List.map_map] at ht'
    obtain ⟨t, ht, rfl⟩ := List.mem_map.mp ht'
    simp only [Function.comp_apply]
    by_cases h1 : t.id = selO.id
    · have h2 : ¬ t.id = selN.id := by
        rw [h1]; exact hne
      have hb1 : (t.id == selO.id) = true := by simp [h1]
      rw [if_pos hb1]
      have hb2 : ¬ (({ t with participants := arrayRemove t.participants uid }
          : VirtualTable).id == selN.id) = true := by
        simp only [beq_iff_eq]
        exact h2
      rw [if_neg hb2]
      constructor
      · intro hmem
        exact absurd hmem (not_mem_arrayRemove_self _ _)
      · intro he
        exact absurd he h2
    · by_cases h2 : t.id = selN.id
      · have hb1 : ¬ ((t.id == selO.id) = true) := by simp [h1]
        rw [if_neg hb1]
        have hb2 : ((t.id == selN.id) = true) := by simp [h2]
        rw [if_pos hb2]
        constructor
        · intro _
          exact h2
        · intro _
          exact mem_arrayUnion_self _ _
      · have hb1 : ¬ ((t.id == selO.id) = true) := by simp [h1]
        rw [if_neg hb1]
        have hb2 : ¬ ((t.id == selN.id) = true) := by simp [h2]
        rw [if_neg hb2]
        constructor
        · intro hmem
          exact absurd (honly t ht hmem) h1
        · intro he
          exact absurd he h2

/-- Witness for C3: user u1 sits at table tA and joins the non-full table
tB of the same event; the handler reports no error. -/
theorem joinTable_switch_witness :
    (∀ t, t ∈ tsEx → "u1" ∈ t.participants → t.id = tOldEx.id)
    ∧ (handleJoinTable tsEx tNewEx (some tOldEx) "u1").2 = none := by
  have honly : ∀ t, t ∈ tsEx → "u1" ∈ t.participants → t.id = tOldEx.id := by
    decide
  exact ⟨honly,
    (joinTable_switch_exclusive tsEx tNewEx tOldEx "u1" (by decide) (by decide)
      (by decide) honly).1⟩

/-- C4 counterexample: tZeroEx has capacity 0 and one participant, so its
participant count is ≥ its capacity, yet handleJoinTable does not fail
with the capacity error (the truthiness guard skips the comparison) and it
modifies the participant set, pushing the count further above capacity. -/
theorem joinTable_capacity_counterexample :
    tZeroEx.capacity ≤ (tZeroEx.participants.length : Int)
    ∧ (handleJoinTable [tZeroEx] tZeroEx none "b1").2 = none
    ∧ ∃ t, t ∈ (handleJoinTable [tZeroEx] tZeroEx none "b1").1
        ∧ t.id = tZeroEx.id ∧ tZeroEx.capacity < (t.participants.length : Int) := by
  decide

/-- C4 (amended to tables whose capacity is at least 1, as the capacity-0
counterexample forces): for a table with capacity ≥ 1, handleJoinTable
fails with the capacity error and issues no write when the participant
count has reached capacity; and one serialized join step preserves the
bound participant-count ≤ capacity across the collection (given distinct
table ids and a fresh snapshot of the selected table). -/
theorem joinTable_capacity_amended
    (ts : List VirtualTable) (selected : VirtualTable)
    (joined : Option VirtualTable) (uid : String)
    (hcap : 1 ≤ selected.capacity) :
    (selected.capacity ≤ (selected.participants.length : Int) →
       handleJoinTable ts selected joined uid = (ts, some "This table is full"))
    ∧ (ts.Pairwise (fun a b => a.id ≠ b.id) → selected ∈ ts →
       (∀ t, t ∈ ts → 1 ≤ t.capacity → (t.participants.length : Int) ≤ t.capacity) →
       ∀ t, t ∈ (handleJoinTable ts selected joined uid).1 →
         1 ≤ t.capacity → (t.participants.length : Int) ≤ t.capacity) := by
  have hc0 : selected.capacity ≠ 0 := by
    intro e
    rw [e] at hcap
    exact absurd hcap (by norm_num)
  constructor
  · intro hfull
    unfold handleJoinTable
    rw [if_pos ⟨hc0, hfull⟩]
  · intro hids hsel hinv t ht
    by_cases hg : selected.capacity ≠ 0
        ∧ selected.capacity ≤ (selected.participants.length : Int)
    · unfold handleJoinTable at ht
      rw [if_pos hg] at ht
      exact hinv t ht
    · unfold handleJoinTable at ht
      rw [if_neg hg] at ht
      have hlt : (selected.participants.length : Int) < selected.capacity := by
        rcases not_and_or.mp hg with h | h
        · exact absurd hc0 h
        · exact lt_of_not_ge h
      obtain ⟨t0, ht0, t1, hid1, hcap1, hlen1, rfl⟩ :=
        joinWrites_mem ts selected joined uid ht
      by_cases h0 : t1.id = selected.id
      · have ht0sel : t0 = selected :=
          table_eq_of_id_eq hids ht0 hsel (hid1 ▸ h0)
        have hb : (t1.id == selected.id) = true := by simp [h0]
        rw [if_pos hb]
        intro _
        have hA : (arrayUnion t1.participants uid).length
            ≤ t1.participants.length + 1 := length_arrayUnion_le _ _
        have hsellen : t0.participants.length = selected.participants.length := by
          rw [ht0sel]
        have hselcap : t0.capacity = selected.capacity := by
          rw [ht0sel]
        simp only []
        omega
      · have hb : ¬ ((t1.id == selected.id) = true) := by simp [h0]
        rw [if_neg hb]
        intro hc1
        have := hinv t0 ht0 (by omega)
        omega

/-- Witness for C4 at the spec's end-to-end scenario: Table 1 has capacity
2 and members a1 and b1; c1's join attempt fails with the capacity error
and no participant set changes. -/
theorem joinTable_capacity_witness :
    (1 : Int) ≤ tFullEx.capacity
    ∧ handleJoinTable [tFullEx] tFullEx none "c1"
        = ([tFullEx], some "This table is full") := by
  have h1 : (1 : Int) ≤ tFullEx.capacity := by decide
  exact ⟨h1,
    (joinTable_capacity_amended [tFullEx] tFullEx none "c1" h1).1 (by decide)⟩

/-- C10: when the selected table's capacity is 0 (the representation of a
zero or missing capacity value), the JS truthiness guard
`selectedTable.capacity && ...` is falsy, so the full-table rejection
branch is unreachable and the handler always proceeds to the membership
writes, whatever the current participant count. -/
theorem joinTable_capacityZero_no_reject
    (ts : List VirtualTable) (selected : VirtualTable)
    (joined : Option VirtualTable) (uid : String)
    (hz : selected.capacity = 0) :
    handleJoinTable ts selected joined uid
      = (joinWrites ts selected joined uid, none) := by
  unfold handleJoinTable
  rw [if_neg]
  intro h
  exact h.1 hz

/-- Witness for C10 at a capacity-0 table that already has three members:
the join still proceeds to the writes. -/
theorem joinTable_capacityZero_witness :
    tZero3Ex.capacity = 0
    ∧ handleJoinTable [tZero3Ex] tZero3Ex none "u4"
        = (joinWrites [tZero3Ex] tZero3Ex none "u4", none) :=
  ⟨rfl, joinTable_capacityZero_no_reject [tZero3Ex] tZero3Ex none "u4" rfl⟩

/-- C7 evaluated on the failing teardown path: after a mount whose
initialization succeeds and registers the four listeners, followed by an
unmount with no intervening dependency change, the cleanup removes no
listener and dispose() is never called — the cleanup closure captured the
jitsiAPI state of the render that ran the effect, which was still null
(jitsiAPI is absent from the effect's dependency array, so the effect is
not re-run after setJitsiAPI). -/
theorem useJitsi_cleanup_stale :
    (useJitsiMountUnmount standardHandlers).listeners = standardHandlers
    ∧ (useJitsiMountUnmount standardHandlers).disposed = false := by
  decide

lemma useJitsiCleanup_live_handle :
    useJitsiCleanup (some ()) standardHandlers
        (setupListeners standardHandlers { listeners := [], disposed := false })
      = { listeners := [], disposed := true } := by
  decide

/-- C8 counterexample: a create request with capacity 0 — outside the
stated 1..50 range — is persisted anyway: the handler checks only the
trimmed name and the eventId, never the capacity. -/
theorem createTable_out_of_range_persisted :
    ¬ ((1 : Int) ≤ 0 ∧ (0 : Int) ≤ 50)
    ∧ createTable [] "e1" "T1" 0 "id1"
        = [{ id := "id1", eventId := "e1", name := "T1", capacity := 0,
             participants := [] }] := by
  decide

/-- C8 (amended: the empty-participant-set part of the claim holds, but
the 1..50 capacity range is only an input-field hint and is not enforced):
whenever the trimmed name and the eventId are nonempty, createTable
appends exactly one new VirtualTable whose participant set is empty and
whose capacity is the submitted value, whatever that value is. -/
theorem createTable_amended (tables : List VirtualTable)
    (eventId name : String) (capacity : Int) (newId : String)
    (hname : jsTrim name ≠ "") (hev : eventId ≠ "") :
    createTable tables eventId name capacity newId
      = tables ++ [{ id := newId, eventId := eventId, name := jsTrim name,
                     capacity := capacity, participants := [] }] := by
  unfold createTable
  rw [if_neg]
  rintro (h | h)
  · exact hname h
  · exact hev h

/-- Witness for the amended C8 at a concrete create request. -/
theorem createTable_amended_witness :
    jsTrim "Networking Table 1" ≠ "" ∧ ("e1" : String) ≠ ""
    ∧ createTable [] "e1" "Networking Table 1" 6 "id2"
        = [{ id := "id2", eventId := "e1", name := jsTrim "Networking Table 1",
             capacity := 6, participants := [] }] := by
  have h1 : jsTrim "Networking Table 1" ≠ "" := by decide
  have h2 : ("e1" : String) ≠ "" := by decide
  exact ⟨h1, h2, createTable_amended [] "e1" "Networking Table 1" 6 "id2" h1 h2⟩

/-- C9: every successful event creation stores a participants array that
is exactly the one-element list holding the creating user's id (who is
also recorded as createdBy). -/
theorem eventCreation_creator_participant
    (uopt : Option String) (title description : String)
    (st et : Option Nat) (isPublic : Bool) (maxP : Option Nat)
    (room newId : String) (ev : Event)
    (h : eventCreationSubmit uopt title description st et isPublic maxP
        room newId = some ev) :
    ∃ u, uopt = some u ∧ ev.participants = [u] ∧ ev.createdBy = u := by
  cases uopt with
  | none => simp [eventCreationSubmit] at h
  | some u =>
    cases st with
    | none => simp [eventCreationSubmit] at h
    | some stv =>
      cases et with
      | none => simp [eventCreationSubmit] at h
      | some etv =>
        simp only [eventCreationSubmit] at h
        split_ifs at h with h1 h2
        have hev := Option.some.inj h
        subst hev
        exact ⟨u, rfl, rfl, rfl⟩

/-- Witness for C9 at a concrete successful creation by user u1. -/
theorem eventCreation_creator_witness :
    ∃ u, (some "u1" : Option String) = some u
      ∧ evCreatedEx.participants = [u] ∧ evCreatedEx.createdBy = u :=
  eventCreation_creator_participant (some "u1") "T" "D" (some 1) (some 2)
    true none "room1" "nid" evCreatedEx (by decide)

end EConnect
